import Mathlib

/-!
Verification development for the EXtra-geom `euxfel/reader.py` module: a
shallow embedding of the train-indexed HDF5 reader (`H5File`,
`RunDirectory`) and of the two array-stacking functions (`stack_data`,
`stack_detector_data`), together with theorems settling the specification
claims about them.

Conventions of the embedding:
* Python dicts become association lists with insert-or-overwrite-in-place
  semantics (`dinsert`), preserving insertion order like Python dicts.
* Python / numpy sequence indexing becomes `pyGet`, which wraps negative
  indices and returns `none` (an `IndexError`) out of range.
* h5py datasets holding per-train rows become `Dataset` (a list of
  abstract row tokens); numpy arrays handled by the stackers become `Arr`
  (dtype tag, shape, row-major flat contents).
* Raised exceptions become `Except PyErr`; the wall-clock timestamp that
  `_gen_train_data` captures is passed in as an explicit `(sec, frac)`
  parameter so reads are deterministic.
-/

namespace EuxfelReader

/-- Exception kinds that the modelled Python code can raise. -/
inductive PyErr where
  | keyError
  | indexError
  | valueError
deriving DecidableEq

/-- Whether an `Except` computation finished without raising. -/
def exceptOk {ε α : Type} : Except ε α → Bool
  | .ok _ => true
  | .error _ => false

/-- Turn an `Option` into an `Except`, raising `e` on `none`. -/
def liftOpt {α : Type} (e : PyErr) : Option α → Except PyErr α
  | none => .error e
  | some a => .ok a

/-- Lookup in an association list (Python `d[k]` read / `k in d`). -/
def alookup {κ α : Type} [DecidableEq κ] : List (κ × α) → κ → Option α
  | [], _ => none
  | (k2, v) :: rest, k => if k2 = k then some v else alookup rest k

/-- Python dict write `d[k] = v`: overwrite in place if the key exists,
append at the end otherwise (insertion order preserved). -/
def dinsert {κ α : Type} [DecidableEq κ] (m : List (κ × α)) (k : κ) (v : α) :
    List (κ × α) :=
  match m with
  | [] => [(k, v)]
  | (k2, v2) :: rest =>
    if k2 = k then (k2, v) :: rest else (k2, v2) :: dinsert rest k v

/-- Python `dict.update`: fold the entries of `d` into `m`. -/
def dictUpdate {κ α : Type} [DecidableEq κ] (m d : List (κ × α)) : List (κ × α) :=
  d.foldl (fun acc p => dinsert acc p.1 p.2) m

/-- Python / numpy sequence indexing: negative indices count from the end,
anything outside `[-len, len)` is an `IndexError` (`none`). -/
def pyGet {α : Type} (l : List α) (i : Int) : Option α :=
  let j : Int := if i < 0 then (l.length : Int) + i else i
  if 0 ≤ j ∧ j < (l.length : Int) then l.get? j.toNat else none

/-- Python `str.split(sep)` on the character list: keeps empty pieces. -/
def chSplit (sep : Char) : List Char → List (List Char)
  | [] => [[]]
  | c :: rest =>
    let r := chSplit sep rest
    if c = sep then [] :: r
    else
      match r with
      | [] => [[c]]
      | g :: gs => (c :: g) :: gs

/-- Python `str.split(sep)` for a one-character separator. -/
def strSplit (s : String) (sep : Char) : List String :=
  (chSplit sep s.data).map String.mk

/-- Python `sep.join(parts)`. -/
def strJoin (sep : String) : List String → String
  | [] => ""
  | [x] => x
  | x :: y :: xs => x ++ sep ++ strJoin sep (y :: xs)

/-- Whether `small` occurs at the start of `big`. -/
def chLeadEq : List Char → List Char → Bool
  | [], _ => true
  | _ :: _, [] => false
  | a :: as, b :: bs => a = b && chLeadEq as bs

/-- Whether `n` occurs contiguously inside `h`. -/
def chInside (n : List Char) : List Char → Bool
  | [] => chLeadEq n []
  | c :: t => chLeadEq n (c :: t) || chInside n t

/-- Python `sub in s` substring test. -/
def strContains (s sub : String) : Bool := chInside sub.data s.data

/-- Lexicographic `<` on character lists (Python string comparison). -/
def chListLt : List Char → List Char → Bool
  | [], [] => false
  | [], _ :: _ => true
  | _ :: _, [] => false
  | a :: as, b :: bs => a < b || (a = b && chListLt as bs)

/-- Python `<` on strings. -/
def strLtB (a b : String) : Bool := chListLt a.data b.data

/-- Lexicographic `<` on lists of naturals (Python list comparison). -/
def natListLt : List Nat → List Nat → Bool
  | [], [] => false
  | [], _ :: _ => true
  | _ :: _, [] => false
  | a :: as, b :: bs => a < b || (a = b && natListLt as bs)

/-- Whether a character is an ASCII digit. -/
def isDig (c : Char) : Bool := '0' ≤ c && c ≤ '9'

/-- Accumulating scanner for `digitRuns`. -/
def digitRunsAux : List Char → Option Nat → List Nat
  | [], none => []
  | [], some v => [v]
  | c :: cs, none =>
    if isDig c then digitRunsAux cs (some (c.toNat - 48))
    else digitRunsAux cs none
  | c :: cs, some v =>
    if isDig c then digitRunsAux cs (some (v * 10 + (c.toNat - 48)))
    else v :: digitRunsAux cs none

/-- Python `[int(x) for x in re.findall(r'\d+', s)]`: the maximal runs of
decimal digits in `s`, each read as a number. -/
def digitRuns (s : String) : List Nat := digitRunsAux s.data none

/-- Stable insertion of `x` into a list ordered by the strict order `lt`. -/
def insSorted {α : Type} (lt : α → α → Bool) (x : α) : List α → List α
  | [] => [x]
  | y :: ys => if lt x y then x :: y :: ys else y :: insSorted lt x ys

/-- Insertion sort by the strict order `lt` (Python `sorted`). -/
def isort {α : Type} (lt : α → α → Bool) : List α → List α
  | [] => []
  | x :: xs => insSorted lt x (isort lt xs)

/-! ## Reader data model -/

/-- One on-disk dataset of a source, holding one abstract row per stored
record; leaf values handed out per train are rows or row slices of it. -/
structure Dataset where
  rows : List Int
deriving DecidableEq

/-- Capture metadata attached to each device of a train record
(`{'source': ..., 'timestamp': {'tid': ..., 'sec': ..., 'frac': ...}}`). -/
structure MetaData where
  src : String
  tid : Nat
  sec : Nat
  frac : Nat
deriving DecidableEq

/-- A leaf of the record tree: a scalar row (`first == last`), a row slice,
or the reserved metadata entry. -/
inductive TreeVal where
  | scalar (v : Int)
  | slice (vs : List Int)
  | meta (m : MetaData)
deriving DecidableEq

/-- The per-device mapping from parameter path to value. -/
abbrev DevDict := List (String × TreeVal)

/-- A record tree for one train: device address to its parameter mapping. -/
abbrev TrainData := List (String × DevDict)

/-- The optional `devices=` filter: device address to parameter set
(empty list meaning "all parameters"). -/
abbrev DevFilter := List (String × List String)

/-- The stored per-source index structure: whichever of the fields
`first`, `last`, `status`, `count` exist in the file, each one value per
train position. -/
structure SourceIndex where
  firstArr : Option (List Nat)
  lastArr : Option (List Nat)
  statusArr : Option (List Nat)
  countArr : Option (List Nat)
deriving DecidableEq

/-- Everything `H5File.__init__` reads from one container file:
the raw `METADATA/dataSourceId` strings, the raw `INDEX/trainId` values,
the per-device index structures, and the leaf datasets (with their
relative keys, as `visititems` enumerates them) under each source. -/
structure H5FileData where
  rawSources : List String
  rawTrainIds : List Nat
  index : List (String × SourceIndex)
  tables : List (String × List (String × Dataset))
deriving DecidableEq

/-- `self.sources`: decoded `dataSourceId` entries, empty ones dropped. -/
def sourcesOf (f : H5FileData) : List String :=
  f.rawSources.filter (fun s => !(s == ""))

/-- `self.train_ids`: stored train ids with the sentinel 0 filtered out. -/
def trainIdsOf (f : H5FileData) : List Nat :=
  f.rawTrainIds.filter (fun t => !(t == 0))

/-- `self._trains`: the dict `{tid: idx for idx, tid in enumerate(train_ids)}`. -/
def trainsMap (f : H5FileData) : List (Nat × Nat) :=
  ((trainIdsOf f).enumFrom 0).foldl (fun m p => dinsert m p.2 p.1) []

/-- `source.split('/', 1)[1]`: drop the category tag, `none` meaning the
`IndexError` Python would raise when no `/` is present. -/
def h5devOf (source : String) : Option String :=
  match strSplit source '/' with
  | [] => none
  | [_] => none
  | _ :: rest => some (strJoin "/" rest)

/-- `'/'.join(dev[:3])`: the device address key of a record tree. -/
def srcKeyOf (hd : String) : String :=
  strJoin "/" ((strSplit hd '/').take 3)

/-- `'.'.join(dev[3:])`: the parameter-path stem of a source. -/
def pathBaseOf (hd : String) : String :=
  strJoin "." ((strSplit hd '/').drop 3)

/-- Resolve one source's index at a train position: auto-detect the legacy
`status/first/last` encoding (when a `last` field exists) versus the
current `first/count` encoding, returning `(active, first, last)`. -/
def resolveRange (si : SourceIndex) (ti : Int) : Except PyErr (Bool × Nat × Int) :=
  match si.firstArr with
  | none => .error .keyError
  | some fa =>
    match pyGet fa ti with
    | none => .error .indexError
    | some first =>
      match si.lastArr with
      | some la =>
        match pyGet la ti with
        | none => .error .indexError
        | some last =>
          match si.statusArr with
          | none => .error .keyError
          | some sa =>
            match pyGet sa ti with
            | none => .error .indexError
            | some st => .ok (st != 0, first, (last : Int))
      | none =>
        match si.countArr with
        | none => .error .keyError
        | some ca =>
          match pyGet ca ti with
          | none => .error .indexError
          | some count => .ok (decide (0 < count), first, (first : Int) + count - 1)

/-- `value[first:last+1]` on a dataset: Python slice semantics (clamped,
empty when the upper bound does not exceed the lower). -/
def pySlice (rows : List Int) (first : Nat) (last : Int) : List Int :=
  if last + 1 ≤ (first : Int) then []
  else (rows.drop first).take (last + 1 - (first : Int)).toNat

/-- Whether the device-level filter skips this source
(`only_this and src not in only_this`). -/
def srcSkip (only : Option DevFilter) (src : String) : Bool :=
  match only with
  | none => false
  | some d => !d.isEmpty && (alookup d src).isNone

/-- Whether the parameter-level filter skips this path
(`only_this and only_this[src] and path not in only_this[src]`), raising
`KeyError` if `only_this[src]` is absent. -/
def paramSkip (only : Option DevFilter) (src path : String) : Except PyErr Bool :=
  match only with
  | none => .ok false
  | some d =>
    if d.isEmpty then .ok false
    else
      match alookup d src with
      | none => .error .keyError
      | some ps => .ok (!ps.isEmpty && !ps.contains path)

/-- The `append_data` closure of `_gen_train_data`, applied to one leaf
dataset: compute the dotted path, apply the parameter filter, then store
the scalar row (`first == last`) or the row slice. -/
def appendLeaf (only : Option DevFilter) (src pb : String) (first : Nat)
    (last : Int) (data : DevDict) (leaf : String × Dataset) :
    Except PyErr DevDict :=
  let path := strJoin "." ((pb :: strSplit leaf.1 '/').filter (fun p => !(p == "")))
  match paramSkip only src path with
  | .error e => .error e
  | .ok true => .ok data
  | .ok false =>
    if (first : Int) = last then
      match leaf.2.rows.get? first with
      | none => .error .indexError
      | some v => .ok (dinsert data path (TreeVal.scalar v))
    else .ok (dinsert data path (TreeVal.slice (pySlice leaf.2.rows first last)))

/-- The body of `_gen_train_data`'s per-source loop: resolve the range,
apply the device filter, walk the leaves when active, then attach the
metadata entry. -/
def processSource (f : H5FileData) (ck : Nat × Nat) (ti : Int)
    (only : Option DevFilter) (td : TrainData) (source : String) :
    Except PyErr TrainData :=
  match h5devOf source with
  | none => .error .indexError
  | some hd =>
    match alookup f.index hd with
    | none => .error .keyError
    | some si =>
      match alookup f.tables source with
      | none => .error .keyError
      | some table =>
        match resolveRange si ti with
        | .error e => .error e
        | .ok (status, first, last) =>
          let src := srcKeyOf hd
          let pb := pathBaseOf hd
          if srcSkip only src then .ok td
          else
            let data0 := (alookup td src).getD []
            match (if status then table.foldlM (appendLeaf only src pb first last) data0
                   else .ok data0) with
            | .error e => .error e
            | .ok data1 =>
              match pyGet (trainIdsOf f) ti with
              | none => .error .indexError
              | some tid =>
                .ok (dinsert td src
                  (dinsert data1 "metadata" (TreeVal.meta ⟨src, tid, ck.1, ck.2⟩)))

/-- The per-source loop of `_gen_train_data`. -/
def genLoop (f : H5FileData) (ck : Nat × Nat) (ti : Int)
    (only : Option DevFilter) : List String → TrainData → Except PyErr TrainData
  | [], td => .ok td
  | s :: ss, td =>
    match processSource f ck ti only td s with
    | .error e => .error e
    | .ok td1 => genLoop f ck ti only ss td1

/-- `H5File._gen_train_data`: build the record tree for the train at
position `ti`, returning `(data, train_id, index)`. -/
def genTrainData (f : H5FileData) (ck : Nat × Nat) (ti : Int)
    (only : Option DevFilter) : Except PyErr (TrainData × Nat × Int) :=
  match genLoop f ck ti only (sourcesOf f) [] with
  | .error e => .error e
  | .ok td =>
    match pyGet (trainIdsOf f) ti with
    | none => .error .indexError
    | some tid => .ok (td, tid, ti)

/-- `H5File.train_from_id`: look the id up in `self._trains`, `KeyError`
when absent. -/
def h5TrainFromId (f : H5FileData) (ck : Nat × Nat) (tid : Nat)
    (only : Option DevFilter) : Except PyErr (TrainData × Nat × Int) :=
  match alookup (trainsMap f) tid with
  | none => .error .keyError
  | some j => genTrainData f ck (j : Int) only

/-- `H5File.train_from_index`: delegate straight to `_gen_train_data`. -/
def h5TrainFromIndex (f : H5FileData) (ck : Nat × Nat) (i : Int)
    (only : Option DevFilter) : Except PyErr (TrainData × Nat × Int) :=
  genTrainData f ck i only

/-! ## RunDirectory -/

/-- One step of `RunDirectory.__init__`'s table building:
`self._trains[train].append(fhandler)`, creating the entry if needed. -/
def addFileTrain (m : List (Nat × List H5FileData)) (tid : Nat)
    (fh : H5FileData) : List (Nat × List H5FileData) :=
  match alookup m tid with
  | none => m ++ [(tid, [fh])]
  | some l => dinsert m tid (l ++ [fh])

/-- `self._trains`: train id to the files holding it, in discovery order. -/
def runTrainsAssoc (files : List H5FileData) : List (Nat × List H5FileData) :=
  files.foldl
    (fun m fh => (trainIdsOf fh).foldl (fun m2 tid => addFileTrain m2 tid fh) m)
    []

/-- `self.ordered_trains = list(sorted(self._trains.items()))`. -/
def orderedTrains (files : List H5FileData) : List (Nat × List H5FileData) :=
  isort (fun a b => decide (a.1 < b.1)) (runTrainsAssoc files)

/-- The merge loop shared by the run readers: call `train_from_id` on each
file holding the train and `dict.update` the device mappings together. -/
def mergeLoop (ck : Nat × Nat) (tid : Nat) (only : Option DevFilter) :
    List H5FileData → TrainData → Except PyErr TrainData
  | [], acc => .ok acc
  | fh :: rest, acc =>
    match h5TrainFromId fh ck tid only with
    | .error e => .error e
    | .ok r => mergeLoop ck tid only rest (dictUpdate acc r.1)

/-- `RunDirectory.train_from_id`. -/
def runTrainFromId (files : List H5FileData) (ck : Nat × Nat) (tid : Nat)
    (only : Option DevFilter) : Except PyErr (Nat × TrainData) :=
  match alookup (runTrainsAssoc files) tid with
  | none => .error .keyError
  | some fhs =>
    match mergeLoop ck tid only fhs [] with
    | .error e => .error e
    | .ok td => .ok (tid, td)

/-- `RunDirectory.train_from_index`: index `ordered_trains` with Python
list semantics, then merge like `train_from_id`. -/
def runTrainFromIndex (files : List H5FileData) (ck : Nat × Nat) (i : Int)
    (only : Option DevFilter) : Except PyErr (Nat × TrainData) :=
  match pyGet (orderedTrains files) i with
  | none => .error .indexError
  | some p =>
    match mergeLoop ck p.1 only p.2 [] with
    | .error e => .error e
    | .ok td => .ok (p.1, td)

/-- `RunDirectory.trains()`: one yielded item per ordered train; a failing
extraction surfaces at that item. -/
def runTrainsList (files : List H5FileData) (ck : Nat × Nat)
    (only : Option DevFilter) : List (Except PyErr (Nat × TrainData)) :=
  (orderedTrains files).map (fun p =>
    match mergeLoop ck p.1 only p.2 [] with
    | .error e => .error e
    | .ok td => .ok (p.1, td))

/-! ## Stacker data model -/

/-- The numpy dtypes the stacking model distinguishes. -/
inductive DType where
  | f32
  | f64
  | i32
  | u64
deriving DecidableEq

/-- Whether the dtype is floating point (has a genuine NaN). -/
def DType.isFloat : DType → Bool
  | .f32 => true
  | .f64 => true
  | _ => false

/-- An array element: the not-a-number placeholder or an abstract number. -/
inductive Elem where
  | nan
  | iv (v : Int)
deriving DecidableEq

/-- A numpy array: dtype tag, shape, and row-major flat contents. -/
structure Arr where
  dtype : DType
  shape : List Nat
  flat : List Elem
deriving DecidableEq

/-- The record tree as the stackers consume it: device to parameter-path
to array. -/
abbrev StTrain := List (String × List (String × Arr))

/-- Number of elements of a shape. -/
def prodShape (s : List Nat) : Nat := s.foldr (fun a b => a * b) 1

/-- `np.zeros(s, dtype)`. -/
def zerosArr (dt : DType) (s : List Nat) : Arr :=
  ⟨dt, s, List.replicate (prodShape s) (Elem.iv 0)⟩

/-- All multi-indices of a shape in row-major order. -/
def allIdx : List Nat → List (List Nat)
  | [] => [[]]
  | d :: ds => ((List.range d).map (fun i => (allIdx ds).map (fun idx => i :: idx))).flatten

/-- Row-major flat offset of a multi-index. -/
def flatIdx : List Nat → List Nat → Nat
  | _ :: ds, i :: is => i * prodShape ds + flatIdx ds is
  | _, _ => 0

/-- Left-pad a shape with 1s to the given rank. -/
def padShape (s : List Nat) (n : Nat) : List Nat :=
  List.replicate (n - s.length) 1 ++ s

/-- numpy broadcast compatibility of two equal-rank shapes. -/
def bcCompat : List Nat → List Nat → Bool
  | [], [] => true
  | a :: as, b :: bs => (a = b || a = 1) && bcCompat as bs
  | _, _ => false

/-- Source index corresponding to a target index under broadcasting. -/
def bcSrcIdx : List Nat → List Nat → List Nat
  | s :: ss, i :: is => (if s = 1 then 0 else i) :: bcSrcIdx ss is
  | _, _ => []

/-- `np.broadcast_to(a, t)`: `none` when the shapes are incompatible. -/
def broadcastTo (a : Arr) (t : List Nat) : Option Arr :=
  if a.shape = t then some a
  else if a.shape.length ≤ t.length then
    let ps := padShape a.shape t.length
    if bcCompat ps t then
      some ⟨a.dtype, t,
        (allIdx t).map (fun idx => a.flat.getD (flatIdx ps (bcSrcIdx ps idx)) (Elem.iv 0))⟩
    else none
  else none

/-- Casting one element into an array of dtype `dt`: NaN cannot be cast
into an integer dtype (`ValueError`). -/
def castElem (dt : DType) (e : Elem) : Except PyErr Elem :=
  if dt.isFloat then .ok e
  else
    match e with
    | .nan => .error .valueError
    | .iv v => .ok (.iv v)

/-- `combined[index, ] = a`: broadcast `a` to the slot shape and cast its
elements to the slot dtype, raising `ValueError` when either fails. -/
def assignSlot (dt : DType) (sh : List Nat) (a : Arr) : Except PyErr Arr :=
  match broadcastTo a sh with
  | none => .error .valueError
  | some b =>
    match b.flat.mapM (castElem dt) with
    | .error e => .error e
    | .ok fl => .ok ⟨dt, sh, fl⟩

/-- The reference dtype/shape generator shared verbatim by `stack_data`
and `stack_detector_data`: the first device in the train's storage order
whose value at `path` exists with no zero-sized dimension. -/
def findRef (train : StTrain) (path : String) : Option (DType × List Nat) :=
  train.findSome? (fun p =>
    match alookup p.2 path with
    | some a => if 0 ∈ a.shape then none else some (a.dtype, a.shape)
    | none => none)

/-- `train[device][path]` as an `Option`. -/
def lookupPath (train : StTrain) (dev path : String) : Option Arr :=
  (alookup train dev).bind (fun d => alookup d path)

/-- `stack_data`'s device order: non-excluded devices sorted by their
embedded digit runs (ties broken by the full name, as Python tuple
comparison does). -/
def pairLt (a b : List Nat × String) : Bool :=
  natListLt a.1 b.1 || (a.1 == b.1 && strLtB a.2 b.2)

/-- Sort device names by `(digit runs, name)`. -/
def sortDevs (devs : List String) : List String :=
  (isort pairLt (devs.map (fun d => (digitRuns d, d)))).map Prod.snd

/-- The candidate devices of `stack_data`, in stacking order. -/
def stackDevs (train : StTrain) (xcept : List String) : List String :=
  sortDevs ((train.map Prod.fst).filter (fun d => decide (d ∉ xcept)))

/-- The per-device write loop of `stack_data`, producing the slots of the
combined array along the leading device axis: an absent path is caught
(`KeyError`, slot stays zero), a zero-sized value is skipped, and a failed
assignment propagates. -/
def slotLoop (train : StTrain) (path : String) (dt : DType) (sh : List Nat) :
    List String → Except PyErr (List Arr)
  | [] => .ok []
  | dev :: rest =>
    match lookupPath train dev path with
    | none =>
      match slotLoop train path dt sh rest with
      | .error e => .error e
      | .ok l => .ok (zerosArr dt sh :: l)
    | some a =>
      if 0 ∈ a.shape then
        match slotLoop train path dt sh rest with
        | .error e => .error e
        | .ok l => .ok (zerosArr dt sh :: l)
      else
        match assignSlot dt sh a with
        | .error e => .error e
        | .ok b =>
          match slotLoop train path dt sh rest with
          | .error e => .error e
          | .ok l => .ok (b :: l)

/-- `stack_data` up to (but not including) the final `np.moveaxis`:
`none` when no reference dtype/shape was found. -/
def stackDataCombined (train : StTrain) (path : String) (xcept : List String) :
    Except PyErr (Option (DType × List Nat × List Arr)) :=
  match findRef train path with
  | none => .ok none
  | some (dt, sh) =>
    match slotLoop train path dt sh (stackDevs train xcept) with
    | .error e => .error e
    | .ok slots => .ok (some (dt, sh, slots))

/-- Reassemble the slot list into the full combined array (leading axis =
device/module axis). -/
def concatSlots (dt : DType) (sh : List Nat) (slots : List Arr) : Arr :=
  ⟨dt, slots.length :: sh, (slots.map (fun a => a.flat)).flatten⟩

/-- Position of the first occurrence of `x`, or the length if absent. -/
def posIn {α : Type} [DecidableEq α] (x : α) : List α → Nat
  | [] => 0
  | y :: ys => if y = x then 0 else posIn x ys + 1

/-- `np.moveaxis(a, 0, axis)`: `none` on an axis outside `[-ndim, ndim)`. -/
def moveAxis0 (a : Arr) (axis : Int) : Option Arr :=
  let n := a.shape.length
  let ax : Int := if axis < 0 then (n : Int) + axis else axis
  if 0 ≤ ax ∧ ax < (n : Int) then
    let axn := ax.toNat
    if axn = 0 then some a
    else
      let rest := (List.range n).drop 1
      let order := rest.take axn ++ 0 :: rest.drop axn
      let newShape := order.map (fun j => a.shape.getD j 0)
      some ⟨a.dtype, newShape,
        (allIdx newShape).map (fun nidx =>
          a.flat.getD
            (flatIdx a.shape ((List.range n).map (fun j => nidx.getD (posIn j order) 0)))
            (Elem.iv 0))⟩
  else none

/-- `stack_data(train, data, axis, xcept)`. -/
def stack_data (train : StTrain) (path : String) (axis : Int)
    (xcept : List String) : Except PyErr Arr :=
  match stackDataCombined train path xcept with
  | .error e => .error e
  | .ok none => .ok ⟨.f64, [0], []⟩
  | .ok (some (dt, sh, slots)) =>
    match moveAxis0 (concatSlots dt sh slots) axis with
    | none => .error .valueError
    | some r => .ok r

/-- The candidate devices of `stack_detector_data`: names containing
`only` and not excluded, in storage order (no sort). -/
def detDevs (train : StTrain) (only : String) (xcept : List String) :
    List String :=
  (train.map Prod.fst).filter (fun d => strContains d only && decide (d ∉ xcept))

/-- `np.full((modules,) + sh, np.nan, dtype)` as a slot list: raises
`ValueError` for integer dtypes (NaN has no integer value). -/
def fullNanSlots (dt : DType) (sh : List Nat) (modules : Nat) :
    Except PyErr (List Arr) :=
  if dt.isFloat then .ok (List.replicate modules ⟨dt, sh, List.replicate (prodShape sh) Elem.nan⟩)
  else .error .valueError

/-- The per-device write loop of `stack_detector_data`: module index =
second-from-last digit run of the device name; a missing path or an
out-of-range module index is caught and skipped, a failed assignment
propagates. -/
def detWriteLoop (train : StTrain) (path : String) (modules : Nat)
    (dt : DType) (sh : List Nat) : List String → List Arr → Except PyErr (List Arr)
  | [], slots => .ok slots
  | dev :: rest, slots =>
    match lookupPath train dev path with
    | none => detWriteLoop train path modules dt sh rest slots
    | some a =>
      if 0 ∈ a.shape then detWriteLoop train path modules dt sh rest slots
      else
        match pyGet (digitRuns dev) (-2) with
        | none => detWriteLoop train path modules dt sh rest slots
        | some idx =>
          if idx < modules then
            match assignSlot dt sh a with
            | .error e => .error e
            | .ok b => detWriteLoop train path modules dt sh rest (slots.set idx b)
          else detWriteLoop train path modules dt sh rest slots

/-- `stack_detector_data` up to (but not including) the final
`np.moveaxis`. -/
def stackDetCombined (train : StTrain) (path : String) (modules : Nat)
    (only : String) (xcept : List String) :
    Except PyErr (Option (DType × List Nat × List Arr)) :=
  match findRef train path with
  | none => .ok none
  | some (dt, sh) =>
    match fullNanSlots dt sh modules with
    | .error e => .error e
    | .ok base =>
      match detWriteLoop train path modules dt sh (detDevs train only xcept) base with
      | .error e => .error e
      | .ok slots => .ok (some (dt, sh, slots))

/-- `stack_detector_data(train, data, axis, modules, only, xcept)`. -/
def stack_detector_data (train : StTrain) (path : String) (axis : Int)
    (modules : Nat) (only : String) (xcept : List String) : Except PyErr Arr :=
  match stackDetCombined train path modules only xcept with
  | .error e => .error e
  | .ok none => .ok ⟨.f64, [0], []⟩
  | .ok (some (dt, sh, slots)) =>
    match moveAxis0 (concatSlots dt sh slots) axis with
    | none => .error .valueError
    | some r => .ok r

/-! ## Auxiliary and spec-side definitions -/

/-- Modelled from the spec: the reference dtype/shape the spec describes
for the stackers — the first candidate device (not excluded, in the
sorted stacking order) whose value at `path` exists and is non-empty.
Kept separate from `findRef` (the code's actual selection) so the two can
be compared. -/
def claimedRefStack (train : StTrain) (path : String) (xcept : List String) :
    Option (DType × List Nat) :=
  (stackDevs train xcept).findSome? (fun dev =>
    match lookupPath train dev path with
    | some a => if 0 ∈ a.shape then none else some (a.dtype, a.shape)
    | none => none)

/-- Run wellformedness: every container listed in the run's train table
can extract every train listed for it. -/
def WFRun (files : List H5FileData) (ck : Nat × Nat) : Prop :=
  ∀ p ∈ orderedTrains files, ∀ fh ∈ p.2,
    exceptOk (h5TrainFromId fh ck p.1 none) = true

instance (files : List H5FileData) (ck : Nat × Nat) :
    Decidable (WFRun files ck) := by
  unfold WFRun
  infer_instance

/-! ## Concrete instances -/

/-- Container holding trains 100 and 101 with one control source. -/
def fileA : H5FileData :=
  { rawSources := ["CONTROL/SA1/XGM/MAIN/pulseEnergy"]
    rawTrainIds := [100, 101]
    index := [("SA1/XGM/MAIN/pulseEnergy", ⟨some [0, 1], none, none, some [1, 1]⟩)]
    tables := [("CONTROL/SA1/XGM/MAIN/pulseEnergy", [("value", ⟨[10, 20]⟩)])] }

/-- Container holding trains 101 and 102 with a different control source. -/
def fileB : H5FileData :=
  { rawSources := ["CONTROL/SQS/MOT/STAGE/position"]
    rawTrainIds := [101, 102]
    index := [("SQS/MOT/STAGE/position", ⟨some [0, 1], none, none, some [1, 1]⟩)]
    tables := [("CONTROL/SQS/MOT/STAGE/position", [("value", ⟨[7, 8]⟩)])] }

/-- The merged record tree both run readers return for train 101 of the
run over `fileA` and `fileB`. -/
def mergedTD : TrainData :=
  [("SA1/XGM/MAIN",
    [("pulseEnergy.value", TreeVal.scalar 20),
     ("metadata", TreeVal.meta ⟨"SA1/XGM/MAIN", 101, 5, 25⟩)]),
   ("SQS/MOT/STAGE",
    [("position.value", TreeVal.scalar 7),
     ("metadata", TreeVal.meta ⟨"SQS/MOT/STAGE", 101, 5, 25⟩)])]

/-- A container whose stored train ids are out of order. -/
def cex4 : H5FileData :=
  { rawSources := [], rawTrainIds := [2, 1], index := [], tables := [] }

/-- Module 7's data array in the detector-stacking scenario. -/
def mk7 : Arr := ⟨.f32, [2, 2], [.iv 1, .iv 2, .iv 3, .iv 4]⟩

/-- The array carried by the out-of-range module-20 device. -/
def mk20 : Arr := ⟨.f32, [2, 2], [.iv 9, .iv 9, .iv 9, .iv 9]⟩

/-- One nan-filled slot of shape `[2, 2]`. -/
def nanSlot22 : Arr := ⟨.f32, [2, 2], List.replicate 4 Elem.nan⟩

/-- Detector train where only module 7 has data at `image.data`. -/
def t51 : StTrain :=
  [("DET/7CH0:x", [("image.data", mk7)]),
   ("DET/3CH0:x", [("other.key", ⟨.f32, [2, 2], []⟩)])]

/-- The same train with an extra device whose module index is 20. -/
def t52 : StTrain := ("DET/20CH0:x", [("image.data", mk20)]) :: t51

/-- Stacking input whose excluded device comes first in storage order and
carries a different dtype/shape than the real candidate. -/
def train7 : StTrain :=
  [("ZDEV9", [("d", ⟨.f64, [3], [.iv 1, .iv 2, .iv 3]⟩)]),
   ("ADEV1", [("d", ⟨.f32, [2, 2], [.iv 4, .iv 4, .iv 4, .iv 4]⟩)])]

/-- Stacking input for exercising the positional stacker: `DEV10` has no
value at path `p`, so its slot stays zero. -/
def wTrain6 : StTrain :=
  [("DEV10", [("q", ⟨.f64, [2], [.iv 8, .iv 8]⟩)]),
   ("DEV2", [("p", ⟨.f64, [2], [.iv 1, .iv 2]⟩)])]

/-- Container with one wellformed source and one source whose index has
neither the `status/first/last` nor the `first/count` field set. -/
def f9 : H5FileData :=
  { rawSources := ["CONTROL/M/N/O/p", "CONTROL/A/B/C/d"]
    rawTrainIds := [100]
    index := [("M/N/O/p", ⟨some [0], none, none, none⟩),
              ("A/B/C/d", ⟨some [0], none, none, some [1]⟩)]
    tables := [("CONTROL/M/N/O/p", [("v", ⟨[1]⟩)]),
               ("CONTROL/A/B/C/d", [("v", ⟨[5]⟩)])] }

/-- `f9` with the malformed source removed. -/
def f9good : H5FileData :=
  { rawSources := ["CONTROL/A/B/C/d"]
    rawTrainIds := [100]
    index := [("A/B/C/d", ⟨some [0], none, none, some [1]⟩)]
    tables := [("CONTROL/A/B/C/d", [("v", ⟨[5]⟩)])] }

/-- One-source container with range parameters left free, for the
range-to-value claims. -/
def c1File (rows : List Int) (first count tid0 : Nat) : H5FileData :=
  { rawSources := ["CONTROL/A/B/C/d"]
    rawTrainIds := [tid0]
    index := [("A/B/C/d", ⟨some [first], none, none, some [count]⟩)]
    tables := [("CONTROL/A/B/C/d", [("v", ⟨rows⟩)])] }

deriving instance DecidableEq for Except

/-! ## Helper lemmas -/

theorem alookup_dinsert_self {κ α : Type} [DecidableEq κ]
    (m : List (κ × α)) (k : κ) (v : α) : alookup (dinsert m k v) k = some v := by
  induction m with
  | nil => simp [dinsert, alookup]
  | cons p rest ih =>
    obtain ⟨k2, v2⟩ := p
    by_cases h : k2 = k
    · subst h
      simp [dinsert, alookup]
    · simp [dinsert, alookup, h, ih]

theorem alookup_dinsert_ne {κ α : Type} [DecidableEq κ]
    (m : List (κ × α)) (k k2 : κ) (v : α) (h : k2 ≠ k) :
    alookup (dinsert m k v) k2 = alookup m k2 := by
  have h2 : k ≠ k2 := Ne.symm h
  induction m with
  | nil => simp [dinsert, alookup, h2]
  | cons p rest ih =>
    obtain ⟨ka, va⟩ := p
    by_cases hk : ka = k
    · subst hk
      simp [dinsert, alookup, h2]
    · by_cases hk2 : ka = k2
      · subst hk2
        simp only [dinsert, alookup, if_neg hk, if_neg h]
        simp [alookup]
      · simp [dinsert, alookup, hk, hk2, ih]

theorem exceptOk_iff {ε α : Type} (x : Except ε α) :
    exceptOk x = true ↔ ∃ y, x = .ok y := by
  cases x <;> simp [exceptOk]

theorem pyGet_eq {α : Type} (l : List α) (i : Int) :
    pyGet l i =
      if 0 ≤ (if i < 0 then (l.length : Int) + i else i) ∧
          (if i < 0 then (l.length : Int) + i else i) < (l.length : Int) then
        l.get? (if i < 0 then (l.length : Int) + i else i).toNat
      else none := rfl

theorem pyGet_none_of {α : Type} (l : List α) (i : Int)
    (h : ¬(-(l.length : Int) ≤ i ∧ i < (l.length : Int))) : pyGet l i = none := by
  rw [pyGet_eq]
  by_cases hneg : i < 0
  · rw [if_pos hneg]
    rw [if_neg (by omega : ¬((0:Int) ≤ (l.length : Int) + i ∧ (l.length : Int) + i < (l.length : Int)))]
  · rw [if_neg hneg]
    rw [if_neg (by omega : ¬((0:Int) ≤ i ∧ i < (l.length : Int)))]

theorem pyGet_isSome {α : Type} (l : List α) (i : Int)
    (h : -(l.length : Int) ≤ i ∧ i < (l.length : Int)) : ∃ x, pyGet l i = some x := by
  obtain ⟨h1, h2⟩ := h
  rw [pyGet_eq]
  by_cases hneg : i < 0
  · rw [if_pos hneg]
    rw [if_pos (by omega : (0:Int) ≤ (l.length : Int) + i ∧ (l.length : Int) + i < (l.length : Int))]
    cases hg : l.get? ((l.length : Int) + i).toNat with
    | none =>
      rw [List.get?_eq_none] at hg
      omega
    | some x => exact ⟨x, rfl⟩
  · rw [if_neg hneg]
    rw [if_pos (by omega : (0:Int) ≤ i ∧ i < (l.length : Int))]
    cases hg : l.get? i.toNat with
    | none =>
      rw [List.get?_eq_none] at hg
      omega
    | some x => exact ⟨x, rfl⟩

theorem pyGet_mem {α : Type} {l : List α} {i : Int} {x : α}
    (h : pyGet l i = some x) : x ∈ l := by
  rw [pyGet_eq] at h
  by_cases hneg : i < 0
  · rw [if_pos hneg] at h
    split at h
    · exact List.get?_mem h
    · cases h
  · rw [if_neg hneg] at h
    split at h
    · exact List.get?_mem h
    · cases h

theorem trains_fold_notmem (l : List Nat) (tid : Nat) :
    tid ∉ l → ∀ (k : Nat) (m : List (Nat × Nat)),
      alookup ((l.enumFrom k).foldl (fun m2 p => dinsert m2 p.2 p.1) m) tid =
        alookup m tid := by
  induction l with
  | nil =>
    intro _ k m
    rfl
  | cons a as ih =>
    intro hmem k m
    have ha : tid ≠ a := fun e => hmem (by simp [e])
    have has : tid ∉ as := fun e => hmem (by simp [e])
    simp only [List.enumFrom, List.foldl]
    rw [ih has (k + 1) (dinsert m a k)]
    exact alookup_dinsert_ne m a tid k ha

theorem trains_fold_get (l : List Nat) :
    ∀ (n : Nat) (tid : Nat), l.Nodup → l.get? n = some tid →
      ∀ (k : Nat) (m : List (Nat × Nat)),
        alookup ((l.enumFrom k).foldl (fun m2 p => dinsert m2 p.2 p.1) m) tid =
          some (k + n) := by
  induction l with
  | nil =>
    intro n tid _ hget
    cases hget
  | cons a as ih =>
    intro n tid hnd hget k m
    cases n with
    | zero =>
      have htid : a = tid := by
        simpa using hget
      subst htid
      have hnotmem : a ∉ as := by
        simp [List.nodup_cons] at hnd
        exact hnd.1
      simp only [List.enumFrom, List.foldl]
      rw [trains_fold_notmem as a hnotmem (k + 1) (dinsert m a k)]
      rw [alookup_dinsert_self]
      simp
    | succ n2 =>
      have hget2 : as.get? n2 = some tid := by
        simpa using hget
      have hnd2 : as.Nodup := by
        simp [List.nodup_cons] at hnd
        exact hnd.2
      simp only [List.enumFrom, List.foldl]
      rw [ih n2 tid hnd2 hget2 (k + 1) (dinsert m a k)]
      congr 1
      omega

theorem genLoop_cons_ok {f : H5FileData} {ck : Nat × Nat} {ti : Int}
    {only : Option DevFilter} {s : String} {ss : List String}
    {td r : TrainData} :
    genLoop f ck ti only (s :: ss) td = .ok r ↔
      ∃ td1, processSource f ck ti only td s = .ok td1 ∧
        genLoop f ck ti only ss td1 = .ok r := by
  constructor
  · intro h
    simp only [genLoop] at h
    cases hp : processSource f ck ti only td s with
    | error e =>
      rw [hp] at h
      cases h
    | ok td1 =>
      rw [hp] at h
      exact ⟨td1, rfl, h⟩
  · rintro ⟨td1, h1, h2⟩
    simp only [genLoop]
    rw [h1]
    exact h2

theorem mergeLoop_ok {ck : Nat × Nat} {tid : Nat} (fhs : List H5FileData)
    (h : ∀ fh ∈ fhs, exceptOk (h5TrainFromId fh ck tid none) = true) :
    ∀ acc, ∃ td, mergeLoop ck tid none fhs acc = .ok td := by
  induction fhs with
  | nil =>
    intro acc
    exact ⟨acc, rfl⟩
  | cons fh rest ih =>
    intro acc
    have hh := h fh (by simp)
    rw [exceptOk_iff] at hh
    obtain ⟨r, hr⟩ := hh
    obtain ⟨td, htd⟩ := ih (fun g hg => h g (by simp [hg])) (dictUpdate acc r.1)
    refine ⟨td, ?_⟩
    simp only [mergeLoop]
    rw [hr]
    exact htd

theorem insSorted_length {α : Type} (lt : α → α → Bool) (x : α) (l : List α) :
    (insSorted lt x l).length = l.length + 1 := by
  induction l with
  | nil => rfl
  | cons y ys ih =>
    by_cases h : lt x y <;> simp [insSorted, h, ih]

theorem isort_length {α : Type} (lt : α → α → Bool) (l : List α) :
    (isort lt l).length = l.length := by
  induction l with
  | nil => rfl
  | cons x xs ih => simp [isort, insSorted_length, ih]

theorem processSource_self {f : H5FileData} {ck : Nat × Nat} {ti : Int}
    {only : Option DevFilter} {td td1 : TrainData} {s hd : String} {tid : Nat}
    (hhd : h5devOf s = some hd)
    (hskip : srcSkip only (srcKeyOf hd) = false)
    (hpy : pyGet (trainIdsOf f) ti = some tid)
    (h : processSource f ck ti only td s = .ok td1) :
    ∃ d, alookup td1 (srcKeyOf hd) = some d ∧
      alookup d "metadata" = some (TreeVal.meta ⟨srcKeyOf hd, tid, ck.1, ck.2⟩) := by
  simp only [processSource, hhd] at h
  split at h
  · exact Except.noConfusion h
  · split at h
    · exact Except.noConfusion h
    · split at h
      · exact Except.noConfusion h
      · split at h
        · next hcond =>
          rw [hskip] at hcond
          exact Bool.noConfusion hcond
        · split at h
          · exact Except.noConfusion h
          · rw [hpy] at h
            injection h with h2
            subst h2
            exact ⟨_, alookup_dinsert_self _ _ _, alookup_dinsert_self _ _ _⟩

theorem processSource_pres {f : H5FileData} {ck : Nat × Nat} {ti : Int}
    {only : Option DevFilter} {td td1 : TrainData} {s2 key : String}
    {tid : Nat} {d : DevDict}
    (hpy : pyGet (trainIdsOf f) ti = some tid)
    (hP : alookup td key = some d ∧
      alookup d "metadata" = some (TreeVal.meta ⟨key, tid, ck.1, ck.2⟩))
    (h : processSource f ck ti only td s2 = .ok td1) :
    ∃ d1, alookup td1 key = some d1 ∧
      alookup d1 "metadata" = some (TreeVal.meta ⟨key, tid, ck.1, ck.2⟩) := by
  simp only [processSource] at h
  split at h
  · exact Except.noConfusion h
  · next hd2 _ =>
    split at h
    · exact Except.noConfusion h
    · split at h
      · exact Except.noConfusion h
      · split at h
        · exact Except.noConfusion h
        · split at h
          · injection h with h2
            subst h2
            exact ⟨d, hP.1, hP.2⟩
          · split at h
            · exact Except.noConfusion h
            · rw [hpy] at h
              injection h with h2
              subst h2
              by_cases hk : srcKeyOf hd2 = key
              · rw [hk, alookup_dinsert_self]
                exact ⟨_, rfl, alookup_dinsert_self _ _ _⟩
              · rw [alookup_dinsert_ne _ _ _ _ (fun e => hk e.symm)]
                exact ⟨d, hP.1, hP.2⟩

theorem genLoop_pres {f : H5FileData} {ck : Nat × Nat} {ti : Int}
    {only : Option DevFilter} {key : String} {tid : Nat}
    (hpy : pyGet (trainIdsOf f) ti = some tid) :
    ∀ (ss : List String) (td r : TrainData),
      genLoop f ck ti only ss td = .ok r →
      (∃ d, alookup td key = some d ∧
        alookup d "metadata" = some (TreeVal.meta ⟨key, tid, ck.1, ck.2⟩)) →
      ∃ d, alookup r key = some d ∧
        alookup d "metadata" = some (TreeVal.meta ⟨key, tid, ck.1, ck.2⟩) := by
  intro ss
  induction ss with
  | nil =>
    intro td r h hP
    cases h
    exact hP
  | cons x xs ih =>
    intro td r h hP
    obtain ⟨td1, h1, h2⟩ := genLoop_cons_ok.mp h
    obtain ⟨d, hd1, hd2⟩ := hP
    exact ih td1 r h2 (processSource_pres hpy ⟨hd1, hd2⟩ h1)

theorem genLoop_est {f : H5FileData} {ck : Nat × Nat} {ti : Int}
    {only : Option DevFilter} {s hd : String} {tid : Nat}
    (hhd : h5devOf s = some hd)
    (hskip : srcSkip only (srcKeyOf hd) = false)
    (hpy : pyGet (trainIdsOf f) ti = some tid) :
    ∀ (ss : List String) (td r : TrainData),
      genLoop f ck ti only ss td = .ok r → s ∈ ss →
      ∃ d, alookup r (srcKeyOf hd) = some d ∧
        alookup d "metadata" =
          some (TreeVal.meta ⟨srcKeyOf hd, tid, ck.1, ck.2⟩) := by
  intro ss
  induction ss with
  | nil =>
    intro td r _ hmem
    cases hmem
  | cons x xs ih =>
    intro td r h hmem
    obtain ⟨td1, h1, h2⟩ := genLoop_cons_ok.mp h
    rcases List.mem_cons.mp hmem with he | hmem2
    · subst he
      exact genLoop_pres hpy xs td1 r h2 (processSource_self hhd hskip hpy h1)
    · exact ih td1 r h2 hmem2

theorem processSource_malformed {f : H5FileData} {ck : Nat × Nat} {ti : Int}
    {td : TrainData} {s hd : String} {si : SourceIndex}
    (hhd : h5devOf s = some hd)
    (hsi : alookup f.index hd = some si)
    (hl : si.lastArr = none) (hc : si.countArr = none) :
    ∀ td1, processSource f ck ti none td s ≠ .ok td1 := by
  intro td1 h
  simp only [processSource, hhd, hsi] at h
  split at h
  · exact Except.noConfusion h
  · split at h
    · next hrr =>
      exact Except.noConfusion h
    · next trip hrr =>
      simp only [resolveRange, hl, hc] at hrr
      split at hrr
      · exact Except.noConfusion hrr
      · split at hrr
        · exact Except.noConfusion hrr
        · exact Except.noConfusion hrr

theorem genLoop_malformed {f : H5FileData} {ck : Nat × Nat} {ti : Int}
    {s hd : String} {si : SourceIndex}
    (hhd : h5devOf s = some hd)
    (hsi : alookup f.index hd = some si)
    (hl : si.lastArr = none) (hc : si.countArr = none) :
    ∀ (ss : List String) (td : TrainData), s ∈ ss →
      ∀ r, genLoop f ck ti none ss td ≠ .ok r := by
  intro ss
  induction ss with
  | nil =>
    intro td hmem
    cases hmem
  | cons x xs ih =>
    intro td hmem r h
    obtain ⟨td1, h1, h2⟩ := genLoop_cons_ok.mp h
    rcases List.mem_cons.mp hmem with he | hm2
    · subst he
      exact processSource_malformed hhd hsi hl hc td1 h1
    · exact ih td1 hm2 r h2

theorem get?_eq_some_getD {α : Type} (l : List α) (d : α) :
    ∀ n, n < l.length → l.get? n = some (l.getD n d) := by
  induction l with
  | nil =>
    intro n h
    exact absurd h (by simp)
  | cons x xs ih =>
    intro n h
    cases n with
    | zero => rfl
    | succ n2 =>
      have h2 : n2 < xs.length := by simpa using h
      simpa [List.getD_cons_succ] using ih n2 h2

theorem assignSlot_shape {dt : DType} {sh : List Nat} {a b : Arr}
    (h : assignSlot dt sh a = .ok b) : b.shape = sh := by
  simp only [assignSlot] at h
  split at h
  · exact Except.noConfusion h
  · split at h
    · exact Except.noConfusion h
    · injection h with h2
      subst h2
      rfl

theorem slotLoop_spec {train : StTrain} {path : String} {dt : DType}
    {sh : List Nat} :
    ∀ (devs : List String) (l : List Arr),
      slotLoop train path dt sh devs = .ok l →
      l.length = devs.length ∧
      ∀ b ∈ l, b.shape = sh ∧
        (b = zerosArr dt sh ∨
          ∃ dev ∈ devs, ∃ a, lookupPath train dev path = some a ∧
            0 ∉ a.shape ∧ assignSlot dt sh a = .ok b) := by
  intro devs
  induction devs with
  | nil =>
    intro l h
    injection h with h2
    subst h2
    exact ⟨rfl, by simp⟩
  | cons dev rest ih =>
    intro l h
    simp only [slotLoop] at h
    split at h
    · next hlp =>
      split at h
      · exact Except.noConfusion h
      · next l2 hl2 =>
        injection h with h2
        subst h2
        obtain ⟨hlen, hall⟩ := ih l2 hl2
        refine ⟨by simp [hlen], ?_⟩
        intro b hb
        rcases List.mem_cons.mp hb with he | hm
        · subst he
          exact ⟨rfl, Or.inl rfl⟩
        · obtain ⟨hsh, hrest⟩ := hall b hm
          refine ⟨hsh, ?_⟩
          rcases hrest with hz | ⟨d2, hd2, a2, ha1, ha2, ha3⟩
          · exact Or.inl hz
          · exact Or.inr ⟨d2, List.mem_cons_of_mem _ hd2, a2, ha1, ha2, ha3⟩
    · next a hlp =>
      split at h
      · next h0 =>
        split at h
        · exact Except.noConfusion h
        · next l2 hl2 =>
          injection h with h2
          subst h2
          obtain ⟨hlen, hall⟩ := ih l2 hl2
          refine ⟨by simp [hlen], ?_⟩
          intro b hb
          rcases List.mem_cons.mp hb with he | hm
          · subst he
            exact ⟨rfl, Or.inl rfl⟩
          · obtain ⟨hsh, hrest⟩ := hall b hm
            refine ⟨hsh, ?_⟩
            rcases hrest with hz | ⟨d2, hd2, a2, ha1, ha2, ha3⟩
            · exact Or.inl hz
            · exact Or.inr ⟨d2, List.mem_cons_of_mem _ hd2, a2, ha1, ha2, ha3⟩
      · next h0 =>
        split at h
        · exact Except.noConfusion h
        · next b0 hb0 =>
          split at h
          · exact Except.noConfusion h
          · next l2 hl2 =>
            injection h with h2
            subst h2
            obtain ⟨hlen, hall⟩ := ih l2 hl2
            refine ⟨by simp [hlen], ?_⟩
            intro b hb
            rcases List.mem_cons.mp hb with he | hm
            · subst he
              exact ⟨assignSlot_shape hb0,
                Or.inr ⟨dev, List.mem_cons_self _ _, a, hlp, h0, hb0⟩⟩
            · obtain ⟨hsh, hrest⟩ := hall b hm
              refine ⟨hsh, ?_⟩
              rcases hrest with hz | ⟨d2, hd2, a2, ha1, ha2, ha3⟩
              · exact Or.inl hz
              · exact Or.inr ⟨d2, List.mem_cons_of_mem _ hd2, a2, ha1, ha2, ha3⟩

theorem findRef_first :
    ∀ (train : StTrain) (path : String) (dt : DType) (sh : List Nat),
      findRef train path = some (dt, sh) →
      ∃ i dev dd a, train.get? i = some (dev, dd) ∧
        alookup dd path = some a ∧ 0 ∉ a.shape ∧ a.dtype = dt ∧ a.shape = sh ∧
        ∀ j, j < i → ∀ dev2 dd2, train.get? j = some (dev2, dd2) →
          ∀ a2, alookup dd2 path = some a2 → 0 ∈ a2.shape := by
  intro train
  induction train with
  | nil =>
    intro path dt sh h
    simp [findRef] at h
  | cons p rest ih =>
    intro path dt sh h
    obtain ⟨dev, dd⟩ := p
    simp only [findRef, List.findSome?_cons] at h
    cases halk : alookup dd path with
    | none =>
      rw [halk] at h
      obtain ⟨i, d2, dd2, a2, hget, h1, h2, h3, h4, h5⟩ := ih path dt sh h
      refine ⟨i + 1, d2, dd2, a2, by simpa using hget, h1, h2, h3, h4, ?_⟩
      intro j hj dev3 dd3 hget3 a3 halk3
      cases j with
      | zero =>
        simp only [List.get?] at hget3
        injection hget3 with hg
        injection hg with hga hgb
        subst hgb
        rw [halk] at halk3
        exact Option.noConfusion halk3
      | succ j2 =>
        exact h5 j2 (by omega) dev3 dd3 (by simpa using hget3) a3 halk3
    | some a =>
      simp only [halk] at h
      by_cases h0 : 0 ∈ a.shape
      · rw [if_pos h0] at h
        obtain ⟨i, d2, dd2, a2, hget, h1, h2, h3, h4, h5⟩ := ih path dt sh h
        refine ⟨i + 1, d2, dd2, a2, by simpa using hget, h1, h2, h3, h4, ?_⟩
        intro j hj dev3 dd3 hget3 a3 halk3
        cases j with
        | zero =>
          simp only [List.get?] at hget3
          injection hget3 with hg
          injection hg with hga hgb
          subst hgb
          rw [halk] at halk3
          injection halk3 with he
          subst he
          exact h0
        | succ j2 =>
          exact h5 j2 (by omega) dev3 dd3 (by simpa using hget3) a3 halk3
      · rw [if_neg h0] at h
        injection h with h2
        injection h2 with ha hb
        refine ⟨0, dev, dd, a, rfl, halk, h0, ha, hb, ?_⟩
        intro j hj
        omega

/-! ## Claim theorems -/

/-- C2: For a run built over `fileA` (trains 100, 101) and `fileB`
(trains 101, 102), the ordered train sequence is exactly `[100, 101, 102]`
and reading train 101 — through `trains()`, `train_from_id`, or
`train_from_index` — returns the record tree whose device keys are the
union of the device keys the two containers contribute. -/
theorem C2_run_merge_two_files :
    (orderedTrains [fileA, fileB]).map Prod.fst = [100, 101, 102] ∧
    runTrainFromId [fileA, fileB] (5, 25) 101 none = .ok (101, mergedTD) ∧
    runTrainFromIndex [fileA, fileB] (5, 25) 1 none = .ok (101, mergedTD) ∧
    (runTrainsList [fileA, fileB] (5, 25) none).get? 1 = some (.ok (101, mergedTD)) ∧
    mergedTD.map Prod.fst = ["SA1/XGM/MAIN", "SQS/MOT/STAGE"] :=
  ⟨rfl, rfl, rfl, rfl, rfl⟩

/-- C4 counterexample: the reader does not sort: a container whose stored
(nonzero) train ids are `[2, 1]` exposes exactly `[2, 1]`, which is not
strictly ascending, refuting the unconditional ascending claim. -/
theorem C4_cex_unsorted_file :
    trainIdsOf cex4 = [2, 1] ∧ ¬ List.Pairwise (· < ·) (trainIdsOf cex4) :=
  ⟨rfl, by decide⟩

/-- C4 (amended): the exposed train-id list never contains the sentinel 0;
and it is strictly ascending whenever the stored `trainId` sequence is
strictly ascending (the reader filters but does not sort). -/
theorem C4_trainids_no_sentinel (f : H5FileData) :
    0 ∉ trainIdsOf f ∧
      (List.Pairwise (· < ·) f.rawTrainIds →
        List.Pairwise (· < ·) (trainIdsOf f)) := by
  constructor
  · intro h
    simp [trainIdsOf, List.mem_filter] at h
  · intro h
    exact h.filter _

/-- C4 witness: instantiating the amended claim at `fileA`. -/
theorem C4_trainids_no_sentinel_witness :
    0 ∉ trainIdsOf fileA ∧ List.Pairwise (· < ·) (trainIdsOf fileA) :=
  ⟨(C4_trainids_no_sentinel fileA).1,
   (C4_trainids_no_sentinel fileA).2 (by decide)⟩

/-- C5: module stacking with 16 modules: when only module 7 carries data
at `image.data`, slot 7 of the combined array (along the module axis)
equals module 7's array and the 15 other slots stay at the NaN
placeholder; adding a device whose extracted module index is 20 changes
nothing (it is skipped, not raised) and the full call still returns a
result. -/
theorem C5_module_stack_placeholder :
    stackDetCombined t51 "image.data" 16 "" [] =
      .ok (some (.f32, [2, 2], (List.replicate 16 nanSlot22).set 7 mk7)) ∧
    stackDetCombined t52 "image.data" 16 "" [] =
      .ok (some (.f32, [2, 2], (List.replicate 16 nanSlot22).set 7 mk7)) ∧
    exceptOk (stack_detector_data t52 "image.data" 0 16 "" []) = true :=
  ⟨rfl, rfl, rfl⟩

/-- C7 counterexample: the reference dtype/shape is not taken from the
first non-excluded candidate: on `train7` with `ZDEV9` excluded, the code
picks `ZDEV9`'s `(f64, [3])` (first in storage order) while the claim
demands `ADEV1`'s `(f32, [2, 2])`; the excluded device's shape then makes
the stacking call fail rather than stack `ADEV1`. -/
theorem C7_cex_reference_ignores_filters :
    findRef train7 "d" = some (.f64, [3]) ∧
    claimedRefStack train7 "d" ["ZDEV9"] = some (.f32, [2, 2]) ∧
    findRef train7 "d" ≠ claimedRefStack train7 "d" ["ZDEV9"] ∧
    stackDataCombined train7 "d" ["ZDEV9"] = .error .valueError :=
  ⟨rfl, rfl, by decide, rfl⟩

/-- C8 counterexample: positional lookup at `-1` does not fail: on the run
over `fileA` and `fileB` it wraps around (Python negative indexing) and
returns the last train, 102. -/
theorem C8_cex_neg_one_succeeds :
    runTrainFromIndex [fileA, fileB] (5, 25) (-1) none =
      .ok (102,
        [("SQS/MOT/STAGE",
          [("position.value", TreeVal.scalar 8),
           ("metadata", TreeVal.meta ⟨"SQS/MOT/STAGE", 102, 5, 25⟩)])]) := rfl

/-- C3: for every train id present in a container, `train_from_index` at
the position of that id and `train_from_id` at the id itself return
identical record trees (indeed identical `(data, tid, index)` results). -/
theorem C3_position_id_agree (f : H5FileData) (ck : Nat × Nat)
    (only : Option DevFilter) (n : Nat) (tid : Nat)
    (hnd : (trainIdsOf f).Nodup) (hget : (trainIdsOf f).get? n = some tid) :
    h5TrainFromIndex f ck (n : Int) only = h5TrainFromId f ck tid only := by
  have hm : alookup (trainsMap f) tid = some n := by
    have h0 := trains_fold_get (trainIdsOf f) n tid hnd hget 0 []
    unfold trainsMap
    simpa using h0
  unfold h5TrainFromId
  rw [hm]
  rfl

/-- C3 witness: train 101 sits at position 1 of `fileA`, and both lookups
agree there. -/
theorem C3_position_id_agree_witness :
    h5TrainFromIndex fileA (5, 25) (1 : Int) none =
      h5TrainFromId fileA (5, 25) 101 none :=
  C3_position_id_agree fileA (5, 25) none 1 101 (by decide) (by decide)

/-- C10: every source that passes the device filter contributes its device
key to the returned record tree, holding a `metadata` entry with the
resolved train id and the capture timestamp — even when the index marks
the train inactive, so a device with no data still appears. -/
theorem C10_metadata_always_attached (f : H5FileData) (ck : Nat × Nat)
    (ti : Int) (only : Option DevFilter) (s hd : String)
    (td : TrainData) (tid : Nat) (ti2 : Int)
    (hs : s ∈ sourcesOf f) (hhd : h5devOf s = some hd)
    (hskip : srcSkip only (srcKeyOf hd) = false)
    (hok : genTrainData f ck ti only = .ok (td, tid, ti2)) :
    ∃ d, alookup td (srcKeyOf hd) = some d ∧
      alookup d "metadata" =
        some (TreeVal.meta ⟨srcKeyOf hd, tid, ck.1, ck.2⟩) := by
  simp only [genTrainData] at hok
  split at hok
  · exact Except.noConfusion hok
  · next td0 hloop =>
    split at hok
    · exact Except.noConfusion hok
    · next tidv hpy =>
      injection hok with h2
      injection h2 with ha hb
      injection hb with hb1 hb2
      subst ha
      subst hb1
      exact genLoop_est hhd hskip hpy (sourcesOf f) [] _ hloop hs

/-- C10 witness: the single source of `fileA` contributes its device key
with the metadata entry for train 100 at position 0. -/
theorem C10_metadata_always_attached_witness :
    ∃ d, alookup
        [("SA1/XGM/MAIN",
          [("pulseEnergy.value", TreeVal.scalar 10),
           ("metadata", TreeVal.meta ⟨"SA1/XGM/MAIN", 100, 5, 25⟩)])]
        "SA1/XGM/MAIN" = some d ∧
      alookup d "metadata" =
        some (TreeVal.meta ⟨"SA1/XGM/MAIN", 100, 5, 25⟩) := by
  have h := C10_metadata_always_attached fileA (5, 25) 0 none
    "CONTROL/SA1/XGM/MAIN/pulseEnergy" "SA1/XGM/MAIN/pulseEnergy"
    [("SA1/XGM/MAIN",
      [("pulseEnergy.value", TreeVal.scalar 10),
       ("metadata", TreeVal.meta ⟨"SA1/XGM/MAIN", 100, 5, 25⟩)])]
    100 0 (by decide) (by decide) (by decide) rfl
  simpa using h

/-- C9 counterexample: a source with neither `status/first/last` nor
`first/count` does not get dropped source-locally: the whole train read of
`f9` fails with `KeyError` even though its second source is wellformed,
while the same container without the malformed source reads fine. -/
theorem C9_cex_malformed_aborts_read :
    genTrainData f9 (0, 0) 0 none = .error .keyError ∧
    genTrainData f9good (0, 0) 0 none =
      .ok ([("A/B/C",
        [("d.v", TreeVal.scalar 5),
         ("metadata", TreeVal.meta ⟨"A/B/C", 100, 0, 0⟩)])], 100, 0) :=
  ⟨rfl, rfl⟩

/-- C9 (amended): a source whose stored index carries neither a `last`
field (legacy encoding) nor a `count` field (current encoding) aborts the
entire train read with an error — the failure is not confined to that
source and the remaining sources' data is not returned. -/
theorem C9_malformed_index_aborts (f : H5FileData) (ck : Nat × Nat) (ti : Int)
    (s hd : String) (si : SourceIndex)
    (hs : s ∈ sourcesOf f) (hhd : h5devOf s = some hd)
    (hsi : alookup f.index hd = some si)
    (hl : si.lastArr = none) (hc : si.countArr = none) :
    exceptOk (genTrainData f ck ti none) = false := by
  cases hg : genTrainData f ck ti none with
  | error e => rfl
  | ok r =>
    exfalso
    simp only [genTrainData] at hg
    split at hg
    · exact Except.noConfusion hg
    · next td0 hloop =>
      exact genLoop_malformed hhd hsi hl hc (sourcesOf f) [] hs td0 hloop

/-- C9 witness: the malformed first source of `f9` makes the whole read
fail. -/
theorem C9_malformed_index_aborts_witness :
    exceptOk (genTrainData f9 (0, 0) 0 none) = false :=
  C9_malformed_index_aborts f9 (0, 0) 0 "CONTROL/M/N/O/p" "M/N/O/p"
    ⟨some [0], none, none, none⟩ (by decide) (by decide) (by decide) rfl rfl

/-- C8 (amended): a positional train lookup fails with an out-of-range
error exactly when the position is outside `[-len, len)` — Python
negative indexing makes position `-1` succeed, while position `len`
fails. For a wellformed run the equivalence is exact; for a single
container any position outside `[-len, len)` fails. -/
theorem C8_position_out_of_range (files : List H5FileData) (f : H5FileData)
    (ck : Nat × Nat) (i : Int) :
    (WFRun files ck →
      (exceptOk (runTrainFromIndex files ck i none) = true ↔
        (-(((orderedTrains files).length : Int)) ≤ i ∧
          i < ((orderedTrains files).length : Int)))) ∧
    (¬(-(((trainIdsOf f).length : Int)) ≤ i ∧
        i < ((trainIdsOf f).length : Int)) →
      exceptOk (h5TrainFromIndex f ck i none) = false) := by
  constructor
  · intro hwf
    constructor
    · intro hok
      by_contra hrange
      have hn := pyGet_none_of (orderedTrains files) i hrange
      simp only [runTrainFromIndex, hn, exceptOk] at hok
      exact Bool.noConfusion hok
    · intro hrange
      obtain ⟨p, hp⟩ := pyGet_isSome (orderedTrains files) i hrange
      have hmem := pyGet_mem hp
      obtain ⟨td, htd⟩ :=
        mergeLoop_ok p.2 (fun fh hfh => hwf p hmem fh hfh) []
      simp only [runTrainFromIndex, hp, htd]
      rfl
  · intro hrange
    have hn := pyGet_none_of (trainIdsOf f) i hrange
    cases hl : genLoop f ck i none (sourcesOf f) [] with
    | error e =>
      simp only [h5TrainFromIndex, genTrainData, hl]
      rfl
    | ok td =>
      simp only [h5TrainFromIndex, genTrainData, hl, hn]
      rfl

/-- C8 witness: position 2 of the wellformed two-file run succeeds, and
position 5 of the two-train container fails. -/
theorem C8_position_out_of_range_witness :
    exceptOk (runTrainFromIndex [fileA, fileB] (5, 25) 2 none) = true ∧
    exceptOk (h5TrainFromIndex fileA (5, 25) 5 none) = false :=
  ⟨((C8_position_out_of_range [fileA, fileB] fileA (5, 25) 2).1
      (by decide)).mpr (by decide),
   (C8_position_out_of_range [fileA, fileB] fileA (5, 25) 5).2 (by decide)⟩

/-- C1: in the `first/count` index encoding, the resolved range has
`last = first + count - 1` with the entry active iff `count > 0`; and in
the returned record tree an active source stores, at its ParameterPath,
the scalar dataset row when `first == last` (`count = 1`) and the row
slice of length `last - first + 1 = count` when `last > first`. -/
theorem C1_range_scalar_slice (rows : List Int)
    (first count tid0 sec frac : Nat)
    (htid : tid0 ≠ 0) (hcnt : 0 < count)
    (hbound : first + count ≤ rows.length) :
    resolveRange ⟨some [first], none, none, some [count]⟩ 0 =
      .ok (decide (0 < count), first, (first : Int) + count - 1) ∧
    ((rows.drop first).take count).length = count ∧
    genTrainData (c1File rows first count tid0) (sec, frac) 0 none =
      .ok ([("A/B/C",
        [("d.v", if count = 1 then TreeVal.scalar (rows.getD first 0)
                 else TreeVal.slice ((rows.drop first).take count)),
         ("metadata", TreeVal.meta ⟨"A/B/C", tid0, sec, frac⟩)])], tid0, 0) := by
  refine ⟨rfl, ?_, ?_⟩
  · rw [List.length_take, List.length_drop]
    omega
  · have htids : trainIdsOf (c1File rows first count tid0) = [tid0] := by
      simp [trainIdsOf, c1File, htid]
    have hpy : pyGet (trainIdsOf (c1File rows first count tid0)) 0 =
        some tid0 := by
      rw [htids]
      rfl
    have happ : appendLeaf none "A/B/C" "d" first ((first : Int) + count - 1)
        [] ("v", ⟨rows⟩) =
        .ok [("d.v", if count = 1 then TreeVal.scalar (rows.getD first 0)
                     else TreeVal.slice ((rows.drop first).take count))] := by
      by_cases hc1 : count = 1
      · subst hc1
        simp only [appendLeaf, paramSkip]
        rw [if_pos (show (first : Int) = (first : Int) + ((1 : Nat) : Int) - 1
          by push_cast; ring)]
        rw [get?_eq_some_getD rows 0 first (by omega)]
        rfl
      · simp only [appendLeaf, paramSkip]
        rw [if_neg (show ¬((first : Int) = (first : Int) + (count : Int) - 1)
          by omega)]
        have hslice : pySlice rows first ((first : Int) + count - 1) =
            (rows.drop first).take count := by
          unfold pySlice
          rw [if_neg (by omega)]
          congr 1
          omega
        rw [hslice, if_neg hc1]
        rfl
    have hps : processSource (c1File rows first count tid0) (sec, frac) 0 none
        [] "CONTROL/A/B/C/d" =
        .ok [("A/B/C",
          [("d.v", if count = 1 then TreeVal.scalar (rows.getD first 0)
                   else TreeVal.slice ((rows.drop first).take count)),
           ("metadata", TreeVal.meta ⟨"A/B/C", tid0, sec, frac⟩)])] := by
      simp only [processSource,
        show h5devOf "CONTROL/A/B/C/d" = some "A/B/C/d" from rfl,
        show alookup (c1File rows first count tid0).index "A/B/C/d" =
          some ⟨some [first], none, none, some [count]⟩ from rfl,
        show alookup (c1File rows first count tid0).tables "CONTROL/A/B/C/d" =
          some [("v", ⟨rows⟩)] from rfl,
        show resolveRange ⟨some [first], none, none, some [count]⟩ 0 =
          .ok (decide (0 < count), first, (first : Int) + count - 1) from rfl,
        show srcKeyOf "A/B/C/d" = "A/B/C" from rfl,
        show pathBaseOf "A/B/C/d" = "d" from rfl,
        show srcSkip none "A/B/C" = false from rfl,
        show alookup ([] : TrainData) "A/B/C" = none from rfl,
        Option.getD_none,
        Bool.false_eq_true, if_false, decide_eq_true hcnt, if_true,
        List.foldlM, happ, bind, Except.bind, pure, Except.pure, hpy]
      rfl
    have hsrcs : sourcesOf (c1File rows first count tid0) =
        ["CONTROL/A/B/C/d"] := rfl
    simp only [genTrainData, genLoop, hsrcs, hps, hpy]

/-- C1 witness: rows `[10, 20, 30]` with `first = 1`, `count = 2` yield
the slice `[20, 30]` (length 2) at path `d.v` for train 100. -/
theorem C1_range_scalar_slice_witness :
    resolveRange ⟨some [1], none, none, some [2]⟩ 0 =
      .ok (decide (0 < 2), 1, ((1 : Nat) : Int) + ((2 : Nat) : Int) - 1) ∧
    ((([10, 20, 30] : List Int).drop 1).take 2).length = 2 ∧
    genTrainData (c1File [10, 20, 30] 1 2 100) (3, 4) 0 none =
      .ok ([("A/B/C",
        [("d.v",
          if 2 = 1 then TreeVal.scalar (([10, 20, 30] : List Int).getD 1 0)
          else TreeVal.slice ((([10, 20, 30] : List Int).drop 1).take 2)),
         ("metadata", TreeVal.meta ⟨"A/B/C", 100, 3, 4⟩)])], 100, 0) :=
  C1_range_scalar_slice [10, 20, 30] 1 2 100 3 4 (by decide) (by decide)
    (by decide)

/-- C6: whenever `stack_data` finds a reference dtype/shape, the combined
array before the final axis move has one slot per non-excluded device —
so shape `(device_count,) + reference_shape` — and every slot not written
from a device's real data equals the zero array. -/
theorem C6_stack_shape_and_zeros (train : StTrain) (path : String)
    (xcept : List String) (dt : DType) (sh : List Nat) (slots : List Arr)
    (h : stackDataCombined train path xcept = .ok (some (dt, sh, slots))) :
    slots.length =
      ((train.map Prod.fst).filter (fun d => decide (d ∉ xcept))).length ∧
    (concatSlots dt sh slots).shape = slots.length :: sh ∧
    ∀ b ∈ slots, b.shape = sh ∧
      (b = zerosArr dt sh ∨
        ∃ dev ∈ stackDevs train xcept, ∃ a,
          lookupPath train dev path = some a ∧ 0 ∉ a.shape ∧
          assignSlot dt sh a = .ok b) := by
  simp only [stackDataCombined] at h
  split at h
  · injection h with h2
    exact Option.noConfusion h2
  · next dt2 sh2 hfind =>
    split at h
    · exact Except.noConfusion h
    · next slots2 hslots =>
      injection h with h2
      injection h2 with h3
      injection h3 with ha hb
      injection hb with hb1 hb2
      subst ha
      subst hb1
      subst hb2
      obtain ⟨hlen, hall⟩ := slotLoop_spec (stackDevs train xcept) slots2 hslots
      refine ⟨?_, rfl, hall⟩
      rw [hlen, stackDevs, sortDevs, List.length_map, isort_length,
        List.length_map]

/-- C6 witness: stacking `wTrain6` at path `p` gives two slots — the
`DEV2` data at position 0 and an untouched zero slot for `DEV10`
(which lacks the path). -/
theorem C6_stack_shape_and_zeros_witness :
    ([(⟨.f64, [2], [.iv 1, .iv 2]⟩ : Arr), zerosArr .f64 [2]] : List Arr).length =
      ((wTrain6.map Prod.fst).filter
        (fun d => decide (d ∉ ([] : List String)))).length ∧
    (concatSlots .f64 [2]
        [(⟨.f64, [2], [.iv 1, .iv 2]⟩ : Arr), zerosArr .f64 [2]]).shape =
      ([(⟨.f64, [2], [.iv 1, .iv 2]⟩ : Arr), zerosArr .f64 [2]] : List Arr).length :: [2] ∧
    ∀ b ∈ ([(⟨.f64, [2], [.iv 1, .iv 2]⟩ : Arr), zerosArr .f64 [2]] : List Arr),
      b.shape = [2] ∧
      (b = zerosArr .f64 [2] ∨
        ∃ dev ∈ stackDevs wTrain6 [], ∃ a,
          lookupPath wTrain6 dev "p" = some a ∧ 0 ∉ a.shape ∧
          assignSlot .f64 [2] a = .ok b) :=
  C6_stack_shape_and_zeros wTrain6 "p" [] .f64 [2] _ rfl

/-- C7 (amended): the reference dtype/shape both stackers use comes from
the first device in the train's storage order — the exclude list, the
name filter and the sorted candidate order play no role — whose value at
the path exists with no zero-sized dimension; and when no device at all
qualifies, both functions return the empty array instead of erroring. -/
theorem C7_reference_first_in_storage (train : StTrain) (path : String)
    (axis : Int) (modules : Nat) (only : String) (xcept : List String) :
    (∀ dt sh, findRef train path = some (dt, sh) →
      ∃ i dev dd a, train.get? i = some (dev, dd) ∧
        alookup dd path = some a ∧ 0 ∉ a.shape ∧ a.dtype = dt ∧ a.shape = sh ∧
        ∀ j, j < i → ∀ dev2 dd2, train.get? j = some (dev2, dd2) →
          ∀ a2, alookup dd2 path = some a2 → 0 ∈ a2.shape) ∧
    (findRef train path = none →
      stack_data train path axis xcept = .ok ⟨.f64, [0], []⟩ ∧
      stack_detector_data train path axis modules only xcept =
        .ok ⟨.f64, [0], []⟩) := by
  constructor
  · intro dt sh hfind
    exact findRef_first train path dt sh hfind
  · intro hnone
    constructor
    · simp only [stack_data, stackDataCombined, hnone]
    · simp only [stack_detector_data, stackDetCombined, hnone]

/-- C7 witness: on `t51` the first storage-order device carries the
reference, and on the empty train both stackers return the empty array. -/
theorem C7_reference_first_in_storage_witness :
    (∃ i dev dd a, t51.get? i = some (dev, dd) ∧
      alookup dd "image.data" = some a ∧ 0 ∉ a.shape ∧
      a.dtype = .f32 ∧ a.shape = [2, 2] ∧
      ∀ j, j < i → ∀ dev2 dd2, t51.get? j = some (dev2, dd2) →
        ∀ a2, alookup dd2 "image.data" = some a2 → 0 ∈ a2.shape) ∧
    stack_data ([] : StTrain) "p" (-3) [] = .ok ⟨.f64, [0], []⟩ ∧
    stack_detector_data ([] : StTrain) "p" (-3) 16 "" [] =
      .ok ⟨.f64, [0], []⟩ :=
  ⟨(C7_reference_first_in_storage t51 "image.data" (-3) 16 "" []).1
      .f32 [2, 2] rfl,
   ((C7_reference_first_in_storage [] "p" (-3) 16 "" []).2 rfl).1,
   ((C7_reference_first_in_storage [] "p" (-3) 16 "" []).2 rfl).2⟩

end EuxfelReader
